import Mathlib

/-!
Verification of the COVID-19 data-analysis pipeline.

The development shallowly embeds the data-processing functions of the
repository:

- src/data/etl.py: clean_data, transform_data, aggregate_data.
  DataFrames are lists of records; the per-row arithmetic of clean_data is
  cleanRow; the groupby/diff/rolling logic of transform_data is modelled by
  partitioning rows into (Country, State) groups, sorting each group by date
  and computing the delta and rolling-mean series; aggregate_data groups by
  key, sums, and applies the validation clips.
- src/data/acquisition.py: standardize_columns, process_file,
  combine_daily_reports, clean_combined_data.  Since these manipulate the
  column set itself, a row is modelled as an association list from column
  names to cells (string, numeric or NaN).
- src/data/data_loader.py: the required-column fill and the Testing_Rate
  computation of DataLoader._process_data.  Float division by zero and
  clipping are modelled exactly for the special values the claims are about
  (positive/negative infinity, NaN).
- src/data/app.py and src/visualization/charts.py: create_metrics, whose
  iloc accesses are modelled by an Option-valued negative indexer.

Machine floats are modelled by exact rationals; the only float-specific
behaviour a claim depends on (division by zero) is modelled by an explicit
value type with infinities and NaN.
-/

namespace Covid

/-- One row of the unified dataset handled by src/data/etl.py, after
load_data has attached the Date column (encoded as a number, e.g. yyyymmdd)
and clean_data has renamed Country_Region/Province_State to Country/State.
The four count columns are integers, as clean_data coerces them with
astype(int). -/
structure CRow where
  Country : String
  State : String
  Date : ℕ
  Confirmed : ℤ
  Deaths : ℤ
  Recovered : ℤ
  Active : ℤ
deriving DecidableEq, Repr, Inhabited

/-- The numeric part of etl.clean_data (src/data/etl.py lines 54-67),
applied to one row after the numeric coercion:
if Recovered is 0 and Confirmed is positive, back-fill
Recovered := Confirmed - Deaths - Active (np.where, lines 56-60);
then Recovered := min(Recovered, Confirmed) (line 63);
then Active := Confirmed - Deaths - Recovered clipped at 0 (lines 66-67). -/
def cleanRow (r : CRow) : CRow :=
  let rcv1 : ℤ :=
    if r.Recovered = 0 ∧ 0 < r.Confirmed then r.Confirmed - r.Deaths - r.Active
    else r.Recovered
  let rcv2 : ℤ := min rcv1 r.Confirmed
  let act : ℤ := max (r.Confirmed - r.Deaths - rcv2) 0
  { r with Recovered := rcv2, Active := act }

/-- etl.clean_data on a table with the fixed CRow schema: the row-wise
numeric cleaning applied to every row.  (The column renaming and the
creation of missing required columns are modelled separately on the
association-list representation, see etl_ensure_required below.) -/
def clean_data (df : List CRow) : List CRow := df.map cleanRow

/-- Daily-delta series of one metric over one group's chronologically
ordered values: groupby(...)[col].diff().fillna(0) followed by
clip(lower=0) (src/data/etl.py lines 82-84).  The first value has no
predecessor (diff gives NaN, filled with 0); later values are the
difference with the previous value, with negatives clipped to 0. -/
def newSeries : List ℤ → List ℤ
  | [] => []
  | x :: xs => 0 :: List.zipWith (fun cur prev => max (cur - prev) 0) xs (x :: xs)

/-- rolling(window=7, min_periods=1).mean() over a series
(src/data/etl.py lines 87-90): at position i the window is the up-to-7
values ending at i, that is positions max(i-6,0)..i, and the entry is their
arithmetic mean (a rational, since pandas computes a float mean). -/
def rollingMA7 (xs : List ℤ) : List ℚ :=
  (List.range xs.length).map (fun i =>
    let w := (xs.take (i + 1)).drop (i + 1 - 7)
    ((w.sum : ℤ) : ℚ) / (w.length : ℚ))

/-- Modelled from the spec wording for comparison with rollingMA7: the
trailing up to 7 values at position i are the last min(i+1, 7) elements of
the series up to and including position i. -/
def trailingLast7 (xs : List ℤ) (i : ℕ) : List ℤ :=
  ((xs.take (i + 1)).reverse.take 7).reverse

/-- Modelled from the spec wording: the mean of the trailing up-to-7 values
at position i. -/
def trailingMean (xs : List ℤ) (i : ℕ) : ℚ :=
  ((trailingLast7 xs i).sum : ℚ) / ((trailingLast7 xs i).length : ℚ)

/-- One row of the transformed dataset produced by etl.transform_data:
the cleaned row plus the three daily-delta columns and their 7-day
moving averages. -/
structure TRow extends CRow where
  NewConfirmed : ℤ
  NewDeaths : ℤ
  NewRecovered : ℤ
  NewConfirmedMA7 : ℚ
  NewDeathsMA7 : ℚ
  NewRecoveredMA7 : ℚ
deriving DecidableEq, Repr

/-- Chronological order on rows, by the DateIndex column. -/
def dateLE (a b : CRow) : Prop := a.Date ≤ b.Date

instance : DecidableRel dateLE := fun a b => Nat.decLe a.Date b.Date

instance : IsTotal CRow dateLE := ⟨fun a b => Nat.le_total a.Date b.Date⟩

instance : IsTrans CRow dateLE := ⟨fun _ _ _ hab hbc => Nat.le_trans hab hbc⟩

/-- Sort a group's rows chronologically (transform_data sorts by
Country, State, DateIndex; within one (Country, State) group this is a sort
by date; pandas multi-key sort_values is stable, as is insertion sort). -/
def sortByDate (rs : List CRow) : List CRow :=
  rs.insertionSort dateLE

/-- The groupby key of transform_data: (Country, State). -/
def keyOf (r : CRow) : String × String := (r.Country, r.State)

/-- transform_data restricted to one (Country, State) group: sort the
group's rows by date, compute the three clipped delta series and their
rolling means, and attach them positionally to the sorted rows
(src/data/etl.py lines 77-90). -/
def transformGroup (rs : List CRow) : List TRow :=
  let srs := sortByDate rs
  let nc := newSeries (srs.map (fun r => r.Confirmed))
  let nd := newSeries (srs.map (fun r => r.Deaths))
  let nr := newSeries (srs.map (fun r => r.Recovered))
  (List.range srs.length).map (fun i =>
    { toCRow := srs.getD i default
      NewConfirmed := nc.getD i 0
      NewDeaths := nd.getD i 0
      NewRecovered := nr.getD i 0
      NewConfirmedMA7 := (rollingMA7 nc).getD i 0
      NewDeathsMA7 := (rollingMA7 nd).getD i 0
      NewRecoveredMA7 := (rollingMA7 nr).getD i 0 })

/-- etl.transform_data: partition the cleaned table into (Country, State)
groups and transform each group over its own chronologically sorted series.
Groups are emitted in first-appearance order of their keys; the aggregation
below is insensitive to row order. -/
def transform_data (df : List CRow) : List TRow :=
  ((df.map keyOf).dedup).flatMap
    (fun k => transformGroup (df.filter (fun r => decide (keyOf r = k))))

/-- One row of the aggregated tables of etl.aggregate_data: the seven
summed metric columns (the key is carried separately). -/
structure AggRow where
  Confirmed : ℤ
  Deaths : ℤ
  Recovered : ℤ
  Active : ℤ
  NewConfirmed : ℤ
  NewDeaths : ℤ
  NewRecovered : ℤ
deriving DecidableEq, Repr

/-- Add one transformed row into an aggregate accumulator (the sum
aggregation of aggregate_data, src/data/etl.py lines 97-111). -/
def addAgg (a : AggRow) (r : TRow) : AggRow :=
  ⟨a.Confirmed + r.Confirmed, a.Deaths + r.Deaths, a.Recovered + r.Recovered,
   a.Active + r.Active, a.NewConfirmed + r.NewConfirmed,
   a.NewDeaths + r.NewDeaths, a.NewRecovered + r.NewRecovered⟩

/-- Sum of a list of transformed rows, metric by metric. -/
def sumRows (rs : List TRow) : AggRow := rs.foldl addAgg ⟨0, 0, 0, 0, 0, 0, 0⟩

/-- The post-aggregation validation of aggregate_data
(src/data/etl.py lines 117-121): clip Active at 0, clip Recovered at 0,
then Recovered := min(Recovered, Confirmed). -/
def validateRow (g : AggRow) : AggRow :=
  let act : ℤ := max g.Active 0
  let rcv0 : ℤ := max g.Recovered 0
  let rcv1 : ℤ := min rcv0 g.Confirmed
  { g with Active := act, Recovered := rcv1 }

/-- etl.aggregate_data: the global-daily table (grouped by Date) and the
per-country-daily table (grouped by (Date, Country)), each row being the
metric sums of the matching transformed rows followed by the validation
clips.  Keys are emitted in first-appearance order (groupby key order does
not affect any row's content). -/
def aggregate_data (df : List TRow) :
    List (ℕ × AggRow) × List ((ℕ × String) × AggRow) :=
  let global_daily :=
    ((df.map (fun r => r.Date)).dedup).map
      (fun d => (d, validateRow (sumRows (df.filter (fun r => decide (r.Date = d))))))
  let country_daily :=
    ((df.map (fun r => (r.Date, r.Country))).dedup).map
      (fun k => (k, validateRow (sumRows
        (df.filter (fun r => decide ((r.Date, r.Country) = k))))))
  (global_daily, country_daily)

/-- One row of the combined dataset of src/data/acquisition.py.  The two
entity columns can be missing (NaN, modelled as none); the metric columns
are rationals, since acquisition keeps them as pandas floats. -/
structure ARow where
  Province_State : Option String
  Country_Region : Option String
  Confirmed : ℚ
  Deaths : ℚ
  Recovered : ℚ
  Active : ℚ
deriving DecidableEq, Repr

/-- COVIDDataAcquisition.clean_combined_data on one row
(src/data/acquisition.py lines 140-155):
fillna of Province_State with the empty string and of Country_Region with
Unknown; clip the four metric columns at 0; Recovered := min(Recovered,
Confirmed); Deaths := min(Deaths, Confirmed); Active := Confirmed - Deaths
- Recovered clipped at 0 (the earlier clip of Active is overwritten). -/
def cleanCombinedRow (r : ARow) : ARow :=
  let ps : String := r.Province_State.getD ""
  let cr : String := r.Country_Region.getD ("Unknown")
  let c : ℚ := max r.Confirmed 0
  let d : ℚ := max r.Deaths 0
  let rcv0 : ℚ := max r.Recovered 0
  let rcv1 : ℚ := min rcv0 c
  let d1 : ℚ := min d c
  let act : ℚ := max (c - d1 - rcv1) 0
  ⟨some ps, some cr, c, d1, rcv1, act⟩

/-- COVIDDataAcquisition.clean_combined_data on a table: the row-wise
cleaning applied to every row.  The final sort_values of lines 157-158 only
permutes rows and is not modelled; every claim here is about row contents,
not row order. -/
def clean_combined_data (df : List ARow) : List ARow := df.map cleanCombinedRow

/-- A cell of a raw daily-report table: a string, a number, or a missing
value (NaN). -/
inductive Cell where
  | str (s : String)
  | num (q : ℚ)
  | nan
deriving DecidableEq, Repr

/-- A row of a raw daily-report table with named columns, modelled as an
association list from column name to cell.  Column-level pandas operations
(rename, column creation) act uniformly on every row, so they are modelled
row-wise. -/
abbrev DRow := List (String × Cell)

/-- Column membership (c in df.columns). -/
def hasCol (r : DRow) (c : String) : Bool := r.any (fun p => p.1 == c)

/-- Read a column's cell, none when the column is absent. -/
def getCol (r : DRow) (c : String) : Option Cell :=
  (r.find? (fun p => p.1 == c)).map (fun p => p.2)

/-- Assign a column (df[col] = value): overwrite it when present, append it
otherwise. -/
def setCol (r : DRow) (c : String) (v : Cell) : DRow :=
  if hasCol r c then r.map (fun p => if p.1 == c then (c, v) else p)
  else r ++ [(c, v)]

/-- df.rename(columns=mapping): a column whose name is a key of the mapping
is renamed to the mapped name; other columns are untouched.  (The source
first restricts the mapping to columns present in the frame, which changes
nothing per row.) -/
def renameCols (m : List (String × String)) (r : DRow) : DRow :=
  r.map (fun p =>
    match m.find? (fun q => q.1 == p.1) with
    | some q => (q.2, p.2)
    | none => p)

/-- Column mapping of standardize_columns for files dated before 2020-03-22
(src/data/acquisition.py lines 58-65). -/
def preMapping : List (String × String) :=
  [("Province/State", "Province_State"), ("Country/Region", "Country_Region"),
   ("Last Update", "Last_Update"), ("Confirmed", "Confirmed"),
   ("Deaths", "Deaths"), ("Recovered", "Recovered")]

/-- Column mapping of standardize_columns for files dated 2020-03-22 or
later (src/data/acquisition.py lines 67-78). -/
def postMapping : List (String × String) :=
  [("Province_State", "Province_State"), ("Country_Region", "Country_Region"),
   ("Last_Update", "Last_Update"), ("Confirmed", "Confirmed"),
   ("Deaths", "Deaths"), ("Recovered", "Recovered"), ("Active", "Active"),
   ("FIPS", "FIPS"), ("Admin2", "Admin2"), ("Combined_Key", "Combined_Key")]

/-- The required columns of standardize_columns
(src/data/acquisition.py lines 84-85). -/
def requiredColumns : List String :=
  ["Province_State", "Country_Region", "Last_Update",
   "Confirmed", "Deaths", "Recovered", "Active"]

/-- The format-change cutoff date 2020-03-22, encoded as yyyymmdd. -/
def cutoffDate : ℕ := 20200322

/-- The add-the-column-if-missing loop body shared by the required-column
passes of standardize_columns, DataLoader._process_data and etl.clean_data:
a column already present is left alone, a missing one is created with its
fill value. -/
def fillStep (fill : String → Cell) (acc : DRow) (col : String) : DRow :=
  if hasCol acc col then acc else setCol acc col (fill col)

/-- Fill values of standardize_columns (src/data/acquisition.py line 89):
np.nan for Province_State and Last_Update, 0 for every other column. -/
def acqFill (col : String) : Cell :=
  if col == "Province_State" || col == "Last_Update" then Cell.nan else Cell.num 0

/-- COVIDDataAcquisition.standardize_columns on one row: pick the rename
mapping by comparing the file date against the cutoff, rename the columns,
then create every missing required column with acqFill
(src/data/acquisition.py lines 52-91). -/
def standardize_columns (r : DRow) (date : ℕ) : DRow :=
  let mapping := if date < cutoffDate then preMapping else postMapping
  let r1 := renameCols mapping r
  requiredColumns.foldl (fillStep acqFill) r1

/-- The numeric columns coerced by process_file
(src/data/acquisition.py line 102). -/
def numericCols : List String := ["Confirmed", "Deaths", "Recovered", "Active"]

/-- pd.to_numeric(values, errors=coerce).fillna(0) on one cell: numbers
stay, NaN and non-numeric strings become 0.  (Numeric CSV fields are
modelled as Cell.num already, so string cells here are the non-numeric
ones.) -/
def toNumericCell : Option Cell → ℚ
  | some (Cell.num q) => q
  | some (Cell.str _) => 0
  | some Cell.nan => 0
  | none => 0

/-- Read a column as a number, with 0 for anything non-numeric. -/
def numOf (r : DRow) (c : String) : ℚ := toNumericCell (getCol r c)

/-- COVIDDataAcquisition.process_file on one row of a successfully read
file (src/data/acquisition.py lines 93-113): standardize the columns,
coerce the numeric columns, attach the Date column, and back-fill Active as
Confirmed - Deaths - Recovered if the Active column is absent.  (The guard
is kept exactly as in the source even though standardize_columns always
creates an Active column.) -/
def process_file_row (r : DRow) (date : ℕ) : DRow :=
  let r1 := standardize_columns r date
  let r2 := numericCols.foldl
    (fun acc col => setCol acc col (Cell.num (toNumericCell (getCol acc col)))) r1
  let r3 := setCol r2 ("Date") (Cell.num date)
  if hasCol r3 ("Active") then r3
  else setCol r3 ("Active")
    (Cell.num (numOf r3 ("Confirmed") - numOf r3 ("Deaths") - numOf r3 ("Recovered")))

/-- Extract the unified-schema fields from a processed row, for the
combined-table cleaning: NaN entity cells become none, numeric columns are
read as numbers. -/
def toARow (r : DRow) : ARow :=
  let textCol : String → Option String := fun c =>
    match getCol r c with
    | some (Cell.str s) => some s
    | _ => none
  { Province_State := textCol ("Province_State")
    Country_Region := textCol ("Country_Region")
    Confirmed := numOf r ("Confirmed")
    Deaths := numOf r ("Deaths")
    Recovered := numOf r ("Recovered")
    Active := numOf r ("Active") }

/-- A raw daily-report file as seen by process_file: none when reading or
parsing raises (I/O error, structural error, malformed date in the file
name), otherwise the file's date and its parsed rows. -/
abbrev RawFile := Option (ℕ × List DRow)

/-- COVIDDataAcquisition.process_file at file granularity: an unreadable
file yields the empty table (the except branch of lines 115-117 returns an
empty DataFrame); a readable one yields its rows processed with the file's
date. -/
def process_file (f : RawFile) : List DRow :=
  match f with
  | none => []
  | some (d, rows) => rows.map (fun r => process_file_row r d)

/-- COVIDDataAcquisition.combine_daily_reports
(src/data/acquisition.py lines 119-138): process every file, keep the
non-empty results, raise ValueError when none remain, otherwise concatenate
them and clean the combined table with clean_combined_data. -/
def combine_daily_reports (files : List RawFile) :
    Except String (List ARow) :=
  let datas := (files.map process_file).filter (fun l => decide (l ≠ []))
  if datas = [] then Except.error ("No data was processed successfully")
  else Except.ok (clean_combined_data (datas.flatten.map toARow))

/-- The essential columns of DataLoader._process_data
(src/data/data_loader.py lines 64-68). -/
def dlEssentialColumns : List String :=
  ["Province_State", "Confirmed", "Deaths", "Recovered", "Active",
   "Incident_Rate", "Total_Test_Results", "Hospitalization_Rate",
   "Case_Fatality_Ratio"]

/-- Fill values of DataLoader._process_data
(src/data/data_loader.py line 72): the empty string for Province_State, 0
for every other column. -/
def dlFill (col : String) : Cell :=
  if col == "Province_State" then Cell.str "" else Cell.num 0

/-- The missing-column fill of DataLoader._process_data
(src/data/data_loader.py lines 70-72): every missing essential column is
created with dlFill. -/
def dl_ensure_essential (r : DRow) : DRow :=
  dlEssentialColumns.foldl (fillStep dlFill) r

/-- The required columns of etl.clean_data (src/data/etl.py line 43). -/
def etlRequiredColumns : List String := ["Confirmed", "Deaths", "Recovered", "Active"]

/-- The missing-column fill of etl.clean_data
(src/data/etl.py lines 44-47): every missing required column (all numeric)
is created and filled with 0. -/
def etl_ensure_required (r : DRow) : DRow :=
  etlRequiredColumns.foldl (fillStep (fun _ => Cell.num 0)) r

/-- One row of the state-level series used by the dashboard metric cards
(src/data/app.py, src/visualization/charts.py): the four fields
create_metrics reads. -/
structure SRow where
  Confirmed : ℚ
  Deaths : ℚ
  Total_Test_Results : ℚ
  Hospitalization_Rate : ℚ
deriving DecidableEq, Repr

/-- Negative positional indexing, series.iloc[-k]: defined exactly when the
series has at least k rows, in which case it is the k-th element from the
end; otherwise pandas raises IndexError, modelled as none. -/
def ilocNeg (l : List SRow) (k : ℕ) : Option SRow :=
  if k ≤ l.length then l.get? (l.length - k) else none

/-- create_metrics (src/data/app.py lines 16-26 and
src/visualization/charts.py lines 35-45): read the last row and the 8th
row from the end of the selected entity's series, and build the four
(value, weekly change) pairs.  The iloc accesses are unguarded in the
source; an out-of-bounds access is the none outcome. -/
def create_metrics (s : List SRow) : Option (List (String × (ℚ × ℚ))) :=
  match ilocNeg s 1, ilocNeg s 8 with
  | some latest, some prev =>
    some
      [("Total Cases", (latest.Confirmed, latest.Confirmed - prev.Confirmed)),
       ("Deaths", (latest.Deaths, latest.Deaths - prev.Deaths)),
       ("Tests", (latest.Total_Test_Results,
                  latest.Total_Test_Results - prev.Total_Test_Results)),
       ("Hospitalization Rate", (latest.Hospitalization_Rate,
                  latest.Hospitalization_Rate - prev.Hospitalization_Rate))]
  | _, _ => none

/-- A pandas float value as far as the Testing_Rate claims need it: a
finite value (modelled exactly as a rational), one of the two infinities,
or NaN. -/
inductive FVal where
  | finite (q : ℚ)
  | posInf
  | negInf
  | nan
deriving DecidableEq, Repr

/-- Float division of finite values, with the IEEE-754 division-by-zero
behaviour pandas inherits: a positive value over 0 is +inf, a negative
value over 0 is -inf, and 0 over 0 is NaN. -/
def fdiv (a b : ℚ) : FVal :=
  if b = 0 then
    if 0 < a then FVal.posInf
    else if a < 0 then FVal.negInf
    else FVal.nan
  else FVal.finite (a / b)

/-- series.clip(lower=0) on one float value: finite values are clamped from
below by 0, -inf becomes 0, +inf stays, NaN is left in place. -/
def fclip0 : FVal → FVal
  | FVal.finite q => FVal.finite (max q 0)
  | FVal.posInf => FVal.posInf
  | FVal.negInf => FVal.finite 0
  | FVal.nan => FVal.nan

/-- The Testing_Rate computation of DataLoader._process_data
(src/data/data_loader.py line 80):
(Total_Test_Results / Confirmed).clip(lower=0), with no guard for a zero
denominator. -/
def testing_rate (totalTests confirmed : ℚ) : FVal :=
  fclip0 (fdiv totalTests confirmed)

/-- Finiteness of a float value. -/
def isFiniteFV : FVal → Bool
  | FVal.finite _ => true
  | _ => false

/-! ### Helper lemmas -/

lemma cleanRow_recovered_le (r : CRow) :
    (cleanRow r).Recovered ≤ (cleanRow r).Confirmed := by
  simp only [cleanRow]
  exact min_le_right _ _

lemma cleanRow_active_eq (r : CRow) :
    (cleanRow r).Active =
      max ((cleanRow r).Confirmed - (cleanRow r).Deaths - (cleanRow r).Recovered) 0 := by
  simp only [cleanRow]

lemma cleanCombinedRow_spec (a : ARow) :
    (cleanCombinedRow a).Deaths ≤ (cleanCombinedRow a).Confirmed ∧
      (cleanCombinedRow a).Recovered ≤ (cleanCombinedRow a).Confirmed ∧
      (cleanCombinedRow a).Active =
        max ((cleanCombinedRow a).Confirmed - (cleanCombinedRow a).Deaths -
          (cleanCombinedRow a).Recovered) 0 := by
  refine ⟨?_, ?_, ?_⟩
  · simp only [cleanCombinedRow]
    exact min_le_right _ _
  · simp only [cleanCombinedRow]
    exact min_le_right _ _
  · simp only [cleanCombinedRow]

lemma cleanRow_fix (s : CRow)
    (hR : s.Recovered ≤ s.Confirmed)
    (hA : s.Active = max (s.Confirmed - s.Deaths - s.Recovered) 0)
    (h : s.Recovered ≠ 0 ∨ s.Confirmed ≤ 0 ∨ s.Deaths ≤ s.Confirmed) :
    cleanRow s = s := by
  obtain ⟨co, st, dt, c, d, rv, a⟩ := s
  dsimp only at hR hA h
  simp only [cleanRow, CRow.mk.injEq, true_and]
  rcases h with h | h | h <;> split_ifs <;> omega

lemma cleanRow_idem (r : CRow)
    (h : (cleanRow r).Recovered ≠ 0 ∨ (cleanRow r).Confirmed ≤ 0 ∨
      (cleanRow r).Deaths ≤ (cleanRow r).Confirmed) :
    cleanRow (cleanRow r) = cleanRow r :=
  cleanRow_fix (cleanRow r) (cleanRow_recovered_le r) (cleanRow_active_eq r) h

lemma cleanCombinedRow_idem (a : ARow) :
    cleanCombinedRow (cleanCombinedRow a) = cleanCombinedRow a := by
  simp only [cleanCombinedRow, Option.getD_some, ARow.mk.injEq]
  have hc : (0 : ℚ) ≤ max a.Confirmed 0 := le_max_right _ _
  have hd : (0 : ℚ) ≤ min (max a.Deaths 0) (max a.Confirmed 0) :=
    le_min (le_max_right _ _) hc
  have hr : (0 : ℚ) ≤ min (max a.Recovered 0) (max a.Confirmed 0) :=
    le_min (le_max_right _ _) hc
  have ec : max (max a.Confirmed 0) 0 = max a.Confirmed 0 := max_eq_left hc
  have ed : max (min (max a.Deaths 0) (max a.Confirmed 0)) 0 =
      min (max a.Deaths 0) (max a.Confirmed 0) := max_eq_left hd
  have er : max (min (max a.Recovered 0) (max a.Confirmed 0)) 0 =
      min (max a.Recovered 0) (max a.Confirmed 0) := max_eq_left hr
  rw [ec, ed, er]
  have ed2 : min (min (max a.Deaths 0) (max a.Confirmed 0)) (max a.Confirmed 0) =
      min (max a.Deaths 0) (max a.Confirmed 0) := by
    rw [min_assoc, min_self]
  have er2 : min (min (max a.Recovered 0) (max a.Confirmed 0)) (max a.Confirmed 0) =
      min (max a.Recovered 0) (max a.Confirmed 0) := by
    rw [min_assoc, min_self]
  rw [ed2, er2]
  simp

lemma hasCol_eq_isSome (r : DRow) (c : String) : hasCol r c = (getCol r c).isSome := by
  induction r with
  | nil => rfl
  | cons p r ih =>
    by_cases hp : p.1 == c
    · simp [hasCol, getCol, List.find?_cons_of_pos, hp]
    · simp only [hasCol, List.any_cons, getCol, List.find?_cons_of_neg _ hp,
        Bool.not_eq_true] at ih ⊢
      simp [hp, ih, hasCol, getCol]

lemma getCol_eq_none_of_hasCol_false (r : DRow) (c : String)
    (h : hasCol r c = false) : getCol r c = none := by
  rw [hasCol_eq_isSome] at h
  exact Option.not_isSome_iff_eq_none.mp (by simp [h])

lemma find?_replaceCol (r : DRow) (c c2 : String) (v : Cell) (h : c ≠ c2) :
    (r.map (fun p => if p.1 == c then (c, v) else p)).find?
        (fun p => p.1 == c2) =
      r.find? (fun p => p.1 == c2) := by
  induction r with
  | nil => rfl
  | cons p r ih =>
    by_cases hp : p.1 == c
    · have hpc : p.1 = c := eq_of_beq hp
      have hp2 : (p.1 == c2) = false := by
        rw [hpc]
        exact beq_eq_false_iff_ne.mpr h
      have hc2 : (c == c2) = false := beq_eq_false_iff_ne.mpr h
      simp only [List.map_cons, if_pos hp, List.find?_cons, hp2, hc2]
      exact ih
    · simp only [List.map_cons, if_neg hp, List.find?_cons]
      by_cases hp2 : p.1 == c2
      · simp [hp2]
      · simp only [Bool.not_eq_true] at hp2
        simp only [hp2]
        exact ih

lemma getCol_setCol_self (r : DRow) (c : String) (v : Cell) :
    getCol (setCol r c v) c = some v := by
  unfold setCol
  by_cases h : hasCol r c
  · rw [if_pos h]
    rw [hasCol_eq_isSome] at h
    unfold getCol at h ⊢
    induction r with
    | nil => simp at h
    | cons p r ih =>
      by_cases hp : p.1 == c
      · have hcc : (((c, v) : String × Cell).1 == c) = true := by simp
        simp only [List.map_cons, if_pos hp, List.find?_cons, hcc]
        rfl
      · have hp2 : (p.1 == c) = false := by
          simp only [Bool.not_eq_true] at hp
          exact hp
        simp only [List.find?_cons, hp2] at h
        simp only [List.map_cons, List.find?_cons, hp2, Bool.false_eq_true,
          if_false] at h ⊢
        exact ih h
  · rw [if_neg h]
    unfold getCol
    rw [List.find?_append]
    have hnone : r.find? (fun p => p.1 == c) = none := by
      have hg := getCol_eq_none_of_hasCol_false r c (by simpa using h)
      unfold getCol at hg
      exact Option.map_eq_none.mp hg
    simp [hnone, List.find?_cons]

lemma getCol_setCol_ne (r : DRow) (c c2 : String) (v : Cell) (h : c ≠ c2) :
    getCol (setCol r c v) c2 = getCol r c2 := by
  unfold setCol
  by_cases hc : hasCol r c
  · rw [if_pos hc]
    unfold getCol
    rw [find?_replaceCol r c c2 v h]
  · rw [if_neg hc]
    unfold getCol
    rw [List.find?_append]
    have hone : List.find? (fun p => p.1 == c2) [(c, v)] = none := by
      simp only [List.find?_cons, List.find?_nil, beq_eq_false_iff_ne.mpr h]
    rw [hone]
    cases r.find? (fun p => p.1 == c2) <;> rfl

lemma hasCol_setCol_ne (r : DRow) (c c2 : String) (v : Cell) (h : c ≠ c2) :
    hasCol (setCol r c v) c2 = hasCol r c2 := by
  rw [hasCol_eq_isSome, hasCol_eq_isSome, getCol_setCol_ne r c c2 v h]

lemma getCol_fillFold_preserve (fill : String → Cell) (cols : List String)
    (r : DRow) (c : String) (h : (getCol r c).isSome) :
    getCol (cols.foldl (fillStep fill) r) c = getCol r c := by
  induction cols generalizing r with
  | nil => rfl
  | cons col cols ih =>
    have hstep : getCol (fillStep fill r col) c = getCol r c := by
      unfold fillStep
      split
      · rfl
      · rename_i hmiss
        by_cases hcc : col = c
        · subst hcc
          rw [hasCol_eq_isSome] at hmiss
          exact absurd h hmiss
        · exact getCol_setCol_ne r col c (fill col) hcc
    show getCol (cols.foldl (fillStep fill) (fillStep fill r col)) c = getCol r c
    rw [ih (fillStep fill r col) (by rw [hstep]; exact h), hstep]

lemma getCol_fillFold_fill (fill : String → Cell) (cols : List String)
    (r : DRow) (c : String) (hc : c ∈ cols) (habs : hasCol r c = false) :
    getCol (cols.foldl (fillStep fill) r) c = some (fill c) := by
  induction cols generalizing r with
  | nil => cases hc
  | cons col cols ih =>
    by_cases hcc : col = c
    · subst hcc
      have hstep : fillStep fill r col = setCol r col (fill col) := by
        unfold fillStep
        rw [if_neg (by simp [habs])]
      show getCol (cols.foldl (fillStep fill) (fillStep fill r col)) col = _
      rw [hstep]
      rw [getCol_fillFold_preserve fill cols _ col
        (by rw [getCol_setCol_self]; rfl)]
      exact getCol_setCol_self r col (fill col)
    · have hmem : c ∈ cols := by
        rcases List.mem_cons.mp hc with h | h
        · exact absurd h.symm hcc
        · exact h
      have habs2 : hasCol (fillStep fill r col) c = false := by
        unfold fillStep
        split
        · exact habs
        · rw [hasCol_setCol_ne r col c (fill col) hcc]
          exact habs
      exact ih (fillStep fill r col) hmem habs2

lemma newSeries_length (l : List ℤ) : (newSeries l).length = l.length := by
  cases l with
  | nil => rfl
  | cons x xs => simp [newSeries, List.length_zipWith]

lemma zipWith_diff_nonneg (xs : List ℤ) :
    ∀ ys : List ℤ, ∀ z ∈ List.zipWith (fun cur prev => max (cur - prev) 0) xs ys,
      0 ≤ z := by
  induction xs with
  | nil =>
    intro ys z hz
    simp at hz
  | cons x xs ih =>
    intro ys z hz
    cases ys with
    | nil => simp at hz
    | cons y ys =>
      simp only [List.zipWith_cons_cons, List.mem_cons] at hz
      rcases hz with rfl | hz
      · exact le_max_right _ _
      · exact ih ys z hz

lemma newSeries_nonneg (l : List ℤ) : ∀ z ∈ newSeries l, 0 ≤ z := by
  cases l with
  | nil =>
    intro z hz
    simp [newSeries] at hz
  | cons x xs =>
    intro z hz
    simp only [newSeries, List.mem_cons] at hz
    rcases hz with rfl | hz
    · exact le_refl 0
    · exact zipWith_diff_nonneg xs (x :: xs) z hz

lemma getD_nonneg (l : List ℤ) (i : ℕ) (h : ∀ z ∈ l, 0 ≤ z) :
    0 ≤ l.getD i 0 := by
  by_cases hi : i < l.length
  · rw [List.getD_eq_getElem l 0 hi]
    exact h _ (List.getElem_mem hi)
  · have hzero : l.getD i 0 = 0 := by
      unfold List.getD
      rw [List.get?_eq_none.mpr (by omega)]
      rfl
    rw [hzero]

lemma drop_eq_reverse_take_reverse (l : List ℤ) (k : ℕ) :
    l.drop (l.length - k) = (l.reverse.take k).reverse := by
  by_cases hk : k ≤ l.length
  · have h1 : (l.drop (l.length - k)).reverse =
        l.reverse.take (l.length - (l.length - k)) := List.reverse_drop
    have h2 : l.length - (l.length - k) = k := by omega
    rw [h2] at h1
    rw [← h1, List.reverse_reverse]
  · push_neg at hk
    have h0 : l.length - k = 0 := by omega
    rw [h0, List.drop_zero,
      List.take_of_length_le (by rw [List.length_reverse]; omega),
      List.reverse_reverse]

lemma rollingMA7_length (xs : List ℤ) : (rollingMA7 xs).length = xs.length := by
  simp [rollingMA7]

lemma rollingMA7_getD (xs : List ℤ) (i : ℕ) (h : i < xs.length) :
    (rollingMA7 xs).getD i 0 = trailingMean xs i := by
  have hlen : i < (rollingMA7 xs).length := by rw [rollingMA7_length]; exact h
  rw [List.getD_eq_getElem _ _ hlen]
  unfold rollingMA7
  rw [List.getElem_map, List.getElem_range]
  unfold trailingMean trailingLast7
  have hlt : (xs.take (i + 1)).length = i + 1 := by
    rw [List.length_take]
    omega
  have hw := drop_eq_reverse_take_reverse (xs.take (i + 1)) 7
  rw [hlt] at hw
  rw [hw]

lemma trailingLast7_length (xs : List ℤ) (i : ℕ) (h : i < xs.length) :
    (trailingLast7 xs i).length = min (i + 1) 7 := by
  unfold trailingLast7
  simp only [List.length_reverse, List.length_take]
  omega

lemma transformGroup_length (rs : List CRow) :
    (transformGroup rs).length = (sortByDate rs).length := by
  simp [transformGroup]

lemma sortByDate_length (rs : List CRow) :
    (sortByDate rs).length = rs.length := List.length_insertionSort dateLE rs

lemma sortByDate_perm (rs : List CRow) : (sortByDate rs).Perm rs :=
  List.perm_insertionSort dateLE rs

lemma sortByDate_sorted (rs : List CRow) :
    (sortByDate rs).Pairwise (fun a b => a.Date ≤ b.Date) :=
  List.sorted_insertionSort dateLE rs

lemma transformGroup_getElem_toCRow (rs : List CRow) (i : ℕ)
    (hlen : i < (transformGroup rs).length)
    (hi : i < (sortByDate rs).length) :
    ((transformGroup rs)[i]).toCRow = (sortByDate rs).get ⟨i, hi⟩ := by
  simp only [transformGroup, List.getElem_map, List.getElem_range]
  rw [List.get_eq_getElem]
  exact List.getD_eq_getElem _ _ hi

lemma transformGroup_toCRow_mem (rs : List CRow) (t : TRow)
    (ht : t ∈ transformGroup rs) : t.toCRow ∈ rs := by
  simp only [transformGroup, List.mem_map, List.mem_range] at ht
  obtain ⟨i, hi, rfl⟩ := ht
  have : (sortByDate rs).getD i default ∈ sortByDate rs := by
    rw [List.getD_eq_getElem _ _ hi]
    exact List.getElem_mem hi
  exact (List.mem_insertionSort dateLE).mp this

lemma transformGroup_new_nonneg (rs : List CRow) (t : TRow)
    (ht : t ∈ transformGroup rs) :
    0 ≤ t.NewConfirmed ∧ 0 ≤ t.NewDeaths ∧ 0 ≤ t.NewRecovered := by
  simp only [transformGroup, List.mem_map, List.mem_range] at ht
  obtain ⟨i, hi, rfl⟩ := ht
  exact ⟨getD_nonneg _ i (newSeries_nonneg _),
    getD_nonneg _ i (newSeries_nonneg _),
    getD_nonneg _ i (newSeries_nonneg _)⟩

lemma transform_data_new_nonneg (df : List CRow) (t : TRow)
    (ht : t ∈ transform_data df) :
    0 ≤ t.NewConfirmed ∧ 0 ≤ t.NewDeaths ∧ 0 ≤ t.NewRecovered := by
  simp only [transform_data, List.mem_flatMap] at ht
  obtain ⟨k, _, htg⟩ := ht
  exact transformGroup_new_nonneg _ t htg

lemma transformGroup_min_zero (rs : List CRow) (t : TRow)
    (ht : t ∈ transformGroup rs)
    (hne : rs.Pairwise (fun a b => a.Date ≠ b.Date))
    (hmin : ∀ u ∈ rs, t.Date ≤ u.Date) :
    t.NewConfirmed = 0 ∧ t.NewDeaths = 0 ∧ t.NewRecovered = 0 := by
  simp only [transformGroup, List.mem_map, List.mem_range] at ht
  obtain ⟨i, hi, rfl⟩ := ht
  have hsorted : (sortByDate rs).Pairwise (fun a b => a.Date ≤ b.Date) :=
    sortByDate_sorted rs
  have hperm : (sortByDate rs).Perm rs := sortByDate_perm rs
  have hne2 : (sortByDate rs).Pairwise (fun a b => a.Date ≠ b.Date) :=
    (hperm.pairwise_iff (fun h => h.symm)).mpr hne
  have hlt : (sortByDate rs).Pairwise (fun a b => a.Date < b.Date) :=
    (hsorted.and hne2).imp (fun h => lt_of_le_of_ne h.1 h.2)
  have hi0 : i = 0 := by
    by_contra h0
    have hipos : 0 < i := Nat.pos_of_ne_zero h0
    have hl0 : 0 < (sortByDate rs).length := lt_trans hipos hi
    have hfl : ((sortByDate rs).get ⟨0, hl0⟩).Date <
        ((sortByDate rs).get ⟨i, hi⟩).Date :=
      List.pairwise_iff_get.mp hlt ⟨0, hl0⟩ ⟨i, hi⟩ (by simpa using hipos)
    have hmem0 : (sortByDate rs).get ⟨0, hl0⟩ ∈ rs :=
      hperm.mem_iff.mp (List.get_mem _ _ hl0)
    have hub := hmin _ hmem0
    have hdate : ((sortByDate rs).getD i default).Date =
        ((sortByDate rs).get ⟨i, hi⟩).Date := by
      rw [List.getD_eq_getElem _ _ hi, List.get_eq_getElem]
    simp only [hdate] at hub
    omega
  subst hi0
  rcases hsrs : sortByDate rs with _ | ⟨a, l⟩
  · rw [hsrs] at hi
    cases hi
  · simp [hsrs, newSeries]

lemma transform_data_surj (df : List CRow) (u : CRow) (hu : u ∈ df) :
    ∃ t ∈ transform_data df, t.toCRow = u := by
  have hk : keyOf u ∈ (df.map keyOf).dedup :=
    List.mem_dedup.mpr (List.mem_map_of_mem _ hu)
  have hu2 : u ∈ df.filter (fun r => decide (keyOf r = keyOf u)) :=
    List.mem_filter.mpr ⟨hu, by simp⟩
  have hu3 : u ∈ sortByDate (df.filter (fun r => decide (keyOf r = keyOf u))) :=
    (List.mem_insertionSort dateLE).mpr hu2
  obtain ⟨i, hi, hget⟩ := List.mem_iff_getElem.mp hu3
  have hlen : i < (transformGroup
      (df.filter (fun r => decide (keyOf r = keyOf u)))).length := by
    rw [transformGroup_length]
    exact hi
  refine ⟨(transformGroup (df.filter (fun r => decide (keyOf r = keyOf u))))[i],
    ?_, ?_⟩
  · simp only [transform_data, List.mem_flatMap]
    exact ⟨keyOf u, hk, List.getElem_mem hlen⟩
  · rw [transformGroup_getElem_toCRow _ i hlen hi, List.get_eq_getElem]
    exact hget

lemma transform_data_min_zero (df : List CRow) (t : TRow)
    (hUniq : df.Pairwise
      (fun a b => (a.Country, a.State, a.Date) ≠ (b.Country, b.State, b.Date)))
    (ht : t ∈ transform_data df)
    (hmin : ∀ u ∈ df, u.Country = t.toCRow.Country → u.State = t.toCRow.State →
      t.toCRow.Date ≤ u.Date) :
    t.NewConfirmed = 0 ∧ t.NewDeaths = 0 ∧ t.NewRecovered = 0 := by
  simp only [transform_data, List.mem_flatMap] at ht
  obtain ⟨k, hk, htg⟩ := ht
  have htc : t.toCRow ∈ df.filter (fun r => decide (keyOf r = k)) :=
    transformGroup_toCRow_mem _ t htg
  have hkey : keyOf t.toCRow = k := by
    have h2 := (List.mem_filter.mp htc).2
    simpa using h2
  have hne : (df.filter (fun r => decide (keyOf r = k))).Pairwise
      (fun a b => a.Date ≠ b.Date) := by
    have h1 := hUniq.filter (fun r => decide (keyOf r = k))
    rw [List.pairwise_iff_get] at h1 ⊢
    intro i j hij heq
    have hgi := (List.mem_filter.mp
      (List.get_mem (df.filter (fun r => decide (keyOf r = k))) i.1 i.2)).2
    have hgj := (List.mem_filter.mp
      (List.get_mem (df.filter (fun r => decide (keyOf r = k))) j.1 j.2)).2
    rw [decide_eq_true_eq] at hgi hgj
    apply h1 i j hij
    have hci : _ = k := hgi
    have hcj : _ = k := hgj
    unfold keyOf at hci hcj
    have hC : ((df.filter (fun r => decide (keyOf r = k))).get i).Country =
        ((df.filter (fun r => decide (keyOf r = k))).get j).Country := by
      have := hci.trans hcj.symm
      exact (Prod.mk.injEq _ _ _ _ ▸ this).1
    have hS : ((df.filter (fun r => decide (keyOf r = k))).get i).State =
        ((df.filter (fun r => decide (keyOf r = k))).get j).State := by
      have := hci.trans hcj.symm
      exact (Prod.mk.injEq _ _ _ _ ▸ this).2
    rw [hC, hS, heq]
  have hmin2 : ∀ u ∈ df.filter (fun r => decide (keyOf r = k)),
      t.toCRow.Date ≤ u.Date := by
    intro u hu
    have hu2 := List.mem_filter.mp hu
    have hukey : keyOf u = k := by simpa using hu2.2
    have hkeys : keyOf u = keyOf t.toCRow := hukey.trans hkey.symm
    unfold keyOf at hkeys
    have hC : u.Country = t.toCRow.Country := (Prod.mk.injEq _ _ _ _ ▸ hkeys).1
    have hS : u.State = t.toCRow.State := (Prod.mk.injEq _ _ _ _ ▸ hkeys).2
    exact hmin u hu2.1 hC hS
  exact transformGroup_min_zero _ t htg hne hmin2

lemma foldl_addAgg_nonneg (rs : List TRow) (a : AggRow)
    (ha : 0 ≤ a.NewConfirmed ∧ 0 ≤ a.NewDeaths ∧ 0 ≤ a.NewRecovered)
    (h : ∀ t ∈ rs, 0 ≤ t.NewConfirmed ∧ 0 ≤ t.NewDeaths ∧ 0 ≤ t.NewRecovered) :
    0 ≤ (rs.foldl addAgg a).NewConfirmed ∧ 0 ≤ (rs.foldl addAgg a).NewDeaths ∧
      0 ≤ (rs.foldl addAgg a).NewRecovered := by
  induction rs generalizing a with
  | nil => exact ha
  | cons t rs ih =>
    have hhead := h t (List.mem_cons_self _ _)
    refine ih (addAgg a t)
      ⟨add_nonneg ha.1 hhead.1, add_nonneg ha.2.1 hhead.2.1,
        add_nonneg ha.2.2 hhead.2.2⟩
      (fun u hu => h u (List.mem_cons_of_mem _ hu))

lemma foldl_addAgg_zero (rs : List TRow) (a : AggRow)
    (h : ∀ t ∈ rs, t.NewConfirmed = 0 ∧ t.NewDeaths = 0 ∧ t.NewRecovered = 0) :
    (rs.foldl addAgg a).NewConfirmed = a.NewConfirmed ∧
      (rs.foldl addAgg a).NewDeaths = a.NewDeaths ∧
      (rs.foldl addAgg a).NewRecovered = a.NewRecovered := by
  induction rs generalizing a with
  | nil => exact ⟨rfl, rfl, rfl⟩
  | cons t rs ih =>
    have hhead := h t (List.mem_cons_self _ _)
    have htail := ih (addAgg a t) (fun u hu => h u (List.mem_cons_of_mem _ hu))
    refine ⟨?_, ?_, ?_⟩
    · rw [List.foldl_cons, htail.1]
      simp [addAgg, hhead.1]
    · rw [List.foldl_cons, htail.2.1]
      simp [addAgg, hhead.2.1]
    · rw [List.foldl_cons, htail.2.2]
      simp [addAgg, hhead.2.2]

lemma validateRow_preserves_new (g : AggRow) :
    (validateRow g).NewConfirmed = g.NewConfirmed ∧
      (validateRow g).NewDeaths = g.NewDeaths ∧
      (validateRow g).NewRecovered = g.NewRecovered :=
  ⟨rfl, rfl, rfl⟩

lemma validateRow_spec (g : AggRow) :
    0 ≤ (validateRow g).Active ∧
      (validateRow g).Recovered ≤ (validateRow g).Confirmed ∧
      (0 ≤ (validateRow g).Confirmed → 0 ≤ (validateRow g).Recovered) := by
  refine ⟨?_, ?_, ?_⟩
  · simp only [validateRow]
    exact le_max_right _ _
  · simp only [validateRow]
    exact min_le_right _ _
  · simp only [validateRow]
    intro hc
    exact le_min (le_max_right _ _) hc

lemma flatten_filter_ne_nil (ls : List (List DRow)) :
    (ls.filter (fun l => decide (l ≠ []))).flatten = ls.flatten := by
  induction ls with
  | nil => rfl
  | cons l ls ih =>
    by_cases hl : l = []
    · subst hl
      simp only [List.filter_cons, decide_not, List.flatten_cons,
        List.nil_append]
      simpa using ih
    · simp only [List.filter_cons, decide_eq_true_eq]
      rw [if_pos (by simpa using hl)]
      simp only [List.flatten_cons, ih]

/-! ### Claims -/

/-- C1, counterexample: the claim requires Deaths ≤ Confirmed on every row
of the cleaning output, but etl.clean_data never clips Deaths: cleaning the
single row (Confirmed 5, Deaths 10, Recovered 3, Active 0) leaves Deaths at
10 above Confirmed 5. -/
theorem c1_counterexample :
    ∃ r ∈ clean_data [⟨"Chile", "", 1, 5, 10, 3, 0⟩],
      r.Confirmed < r.Deaths := by
  decide

/-- C1, amended: every row of etl.clean_data output satisfies
Recovered ≤ Confirmed and Active = max(Confirmed - Deaths - Recovered, 0);
every row of acquisition clean_combined_data output additionally satisfies
Deaths ≤ Confirmed.  etl.clean_data does not enforce Deaths ≤ Confirmed. -/
theorem c1_amended (df : List CRow) (adf : List ARow) :
    (∀ r ∈ clean_data df, r.Recovered ≤ r.Confirmed ∧
      r.Active = max (r.Confirmed - r.Deaths - r.Recovered) 0) ∧
    (∀ a ∈ clean_combined_data adf, a.Deaths ≤ a.Confirmed ∧
      a.Recovered ≤ a.Confirmed ∧
      a.Active = max (a.Confirmed - a.Deaths - a.Recovered) 0) := by
  constructor
  · intro r hr
    simp only [clean_data, List.mem_map] at hr
    obtain ⟨s, _, rfl⟩ := hr
    exact ⟨cleanRow_recovered_le s, cleanRow_active_eq s⟩
  · intro a ha
    simp only [clean_combined_data, List.mem_map] at ha
    obtain ⟨b, _, rfl⟩ := ha
    exact cleanCombinedRow_spec b

/-- C1, witness: the amended invariants evaluated on concrete cleaned
rows. -/
theorem c1_amended_witness :
    ((cleanRow ⟨"US", "WA", 1, 10, 2, 3, 5⟩).Recovered ≤
        (cleanRow ⟨"US", "WA", 1, 10, 2, 3, 5⟩).Confirmed ∧
      (cleanRow ⟨"US", "WA", 1, 10, 2, 3, 5⟩).Active =
        max ((cleanRow ⟨"US", "WA", 1, 10, 2, 3, 5⟩).Confirmed -
          (cleanRow ⟨"US", "WA", 1, 10, 2, 3, 5⟩).Deaths -
          (cleanRow ⟨"US", "WA", 1, 10, 2, 3, 5⟩).Recovered) 0) ∧
    ((cleanCombinedRow ⟨none, none, 3, 5, 7, -1⟩).Deaths ≤
        (cleanCombinedRow ⟨none, none, 3, 5, 7, -1⟩).Confirmed ∧
      (cleanCombinedRow ⟨none, none, 3, 5, 7, -1⟩).Recovered ≤
        (cleanCombinedRow ⟨none, none, 3, 5, 7, -1⟩).Confirmed ∧
      (cleanCombinedRow ⟨none, none, 3, 5, 7, -1⟩).Active =
        max ((cleanCombinedRow ⟨none, none, 3, 5, 7, -1⟩).Confirmed -
          (cleanCombinedRow ⟨none, none, 3, 5, 7, -1⟩).Deaths -
          (cleanCombinedRow ⟨none, none, 3, 5, 7, -1⟩).Recovered) 0) :=
  ⟨(c1_amended [⟨"US", "WA", 1, 10, 2, 3, 5⟩] []).1
      (cleanRow ⟨"US", "WA", 1, 10, 2, 3, 5⟩) (by decide),
    (c1_amended [] [⟨none, none, 3, 5, 7, -1⟩]).2
      (cleanCombinedRow ⟨none, none, 3, 5, 7, -1⟩)
      (by simp [clean_combined_data])⟩

/-- C4, counterexample: cleaning is not idempotent.  The table containing
the row (Confirmed 5, Deaths 10, Recovered 0, Active -5) cleans to a row
with Recovered 0, Active 0; cleaning that output again back-fills
Recovered to 5 - 10 - 0 = -5, changing the table. -/
theorem c4_counterexample :
    clean_data (clean_data [⟨"Peru", "", 2, 5, 10, 0, -5⟩]) ≠
      clean_data [⟨"Peru", "", 2, 5, 10, 0, -5⟩] := by
  decide

/-- C4, amended: re-cleaning an already-cleaned table is a no-op for
acquisition clean_combined_data, and for etl.clean_data on every row whose
cleaned form has Recovered ≠ 0, or Confirmed ≤ 0, or Deaths ≤ Confirmed;
it is not a no-op on cleaned rows with Recovered = 0, Confirmed > 0 and
Deaths > Confirmed, where the Recovered back-fill fires again. -/
theorem c4_amended (r : CRow) (adf : List ARow)
    (h : (cleanRow r).Recovered ≠ 0 ∨ (cleanRow r).Confirmed ≤ 0 ∨
      (cleanRow r).Deaths ≤ (cleanRow r).Confirmed) :
    cleanRow (cleanRow r) = cleanRow r ∧
      clean_combined_data (clean_combined_data adf) = clean_combined_data adf := by
  refine ⟨cleanRow_idem r h, ?_⟩
  simp only [clean_combined_data, List.map_map]
  exact List.map_congr_left (fun a _ => cleanCombinedRow_idem a)

/-- C4, witness: idempotence evaluated on a concrete row and table. -/
theorem c4_amended_witness :
    cleanRow (cleanRow ⟨"US", "NY", 3, 10, 2, 3, 1⟩) =
        cleanRow ⟨"US", "NY", 3, 10, 2, 3, 1⟩ ∧
      clean_combined_data (clean_combined_data [⟨none, some "Brazil", 4, 6, 2, -1⟩]) =
        clean_combined_data [⟨none, some "Brazil", 4, 6, 2, -1⟩] :=
  c4_amended ⟨"US", "NY", 3, 10, 2, 3, 1⟩ [⟨none, some "Brazil", 4, 6, 2, -1⟩]
    (by decide)

/-- C5, counterexample: the post-aggregation re-check does not give
Recovered ≥ 0 on every row.  A single input row with Confirmed -5 (never
clipped by etl.clean_data) survives to aggregation, where the final
Recovered := min(Recovered, Confirmed) drags the clipped Recovered back to
-5 in both output tables. -/
theorem c5_counterexample :
    (∃ p ∈ (aggregate_data (transform_data
        (clean_data [⟨"Chad", "", 1, -5, 0, 0, 0⟩]))).1,
      p.2.Recovered < 0) ∧
    (∃ p ∈ (aggregate_data (transform_data
        (clean_data [⟨"Chad", "", 1, -5, 0, 0, 0⟩]))).2,
      p.2.Recovered < 0) := by
  decide

/-- C5, amended: after the re-check, every row of both aggregated tables
satisfies Active ≥ 0 and Recovered ≤ Confirmed, and satisfies
Recovered ≥ 0 whenever its Confirmed is non-negative; a negative aggregate
Confirmed forces Recovered below zero through the final min. -/
theorem c5_amended (df : List TRow) :
    (∀ p ∈ (aggregate_data df).1, 0 ≤ p.2.Active ∧
      p.2.Recovered ≤ p.2.Confirmed ∧
      (0 ≤ p.2.Confirmed → 0 ≤ p.2.Recovered)) ∧
    (∀ p ∈ (aggregate_data df).2, 0 ≤ p.2.Active ∧
      p.2.Recovered ≤ p.2.Confirmed ∧
      (0 ≤ p.2.Confirmed → 0 ≤ p.2.Recovered)) := by
  constructor
  · intro p hp
    simp only [aggregate_data, List.mem_map] at hp
    obtain ⟨d, _, rfl⟩ := hp
    exact validateRow_spec _
  · intro p hp
    simp only [aggregate_data, List.mem_map] at hp
    obtain ⟨k, _, rfl⟩ := hp
    exact validateRow_spec _

/-- C5, witness: the amended invariants on a concrete aggregated row. -/
theorem c5_amended_witness :
    0 ≤ (((1 : ℕ), (⟨4, 1, 1, 2, 0, 0, 0⟩ : AggRow))).2.Active ∧
      (((1 : ℕ), (⟨4, 1, 1, 2, 0, 0, 0⟩ : AggRow))).2.Recovered ≤
        (((1 : ℕ), (⟨4, 1, 1, 2, 0, 0, 0⟩ : AggRow))).2.Confirmed ∧
      (0 ≤ (((1 : ℕ), (⟨4, 1, 1, 2, 0, 0, 0⟩ : AggRow))).2.Confirmed →
        0 ≤ (((1 : ℕ), (⟨4, 1, 1, 2, 0, 0, 0⟩ : AggRow))).2.Recovered) :=
  (c5_amended (transform_data (clean_data [⟨"France", "", 1, 4, 1, 1, 0⟩]))).1
    ((1 : ℕ), (⟨4, 1, 1, 2, 0, 0, 0⟩ : AggRow)) (by decide)

/-- C3: in etl.transform_data, the moving-average column of each group row
equals the mean of the trailing up-to-7 clipped daily deltas of that same
group in chronological order; the window at row i holds min(i+1, 7) values,
always at least one, and a moving average is produced for every row of the
group (no row is withheld). -/
theorem c3_moving_average (rs : List CRow) (i : ℕ)
    (h : i < (transformGroup rs).length) :
    ((transformGroup rs).get ⟨i, h⟩).NewConfirmedMA7 =
      trailingMean (newSeries ((sortByDate rs).map (fun r => r.Confirmed))) i ∧
    (trailingLast7 (newSeries ((sortByDate rs).map (fun r => r.Confirmed)))
        i).length = min (i + 1) 7 ∧
    1 ≤ (trailingLast7 (newSeries ((sortByDate rs).map (fun r => r.Confirmed)))
        i).length ∧
    (transformGroup rs).length = rs.length := by
  have hi : i < (sortByDate rs).length := by
    rw [← transformGroup_length]
    exact h
  have hlen : i < (newSeries ((sortByDate rs).map (fun r => r.Confirmed))).length := by
    rw [newSeries_length, List.length_map]
    exact hi
  refine ⟨?_, ?_, ?_, ?_⟩
  · rw [List.get_eq_getElem]
    simp only [transformGroup, List.getElem_map, List.getElem_range]
    exact rollingMA7_getD _ i hlen
  · exact trailingLast7_length _ i hlen
  · rw [trailingLast7_length _ i hlen]
    omega
  · rw [transformGroup_length, sortByDate_length]

/-- C3, witness: the moving-average property on a concrete one-row
group. -/
theorem c3_witness :
    ((transformGroup [⟨"US", "CA", 1, 3, 0, 0, 3⟩]).get
        ⟨0, by decide⟩).NewConfirmedMA7 =
      trailingMean (newSeries ((sortByDate [⟨"US", "CA", 1, 3, 0, 0, 3⟩]).map
        (fun r => r.Confirmed))) 0 :=
  (c3_moving_average [⟨"US", "CA", 1, 3, 0, 0, 3⟩] 0 (by decide)).1

/-- C2, counterexample: in the per-country table, NewConfirmed is not the
clipped difference of the group's Confirmed with its previous date.
Country X has two states; state A goes 10 to 5 (clipped delta 0), state B
goes 0 to 10 (delta 10).  At date 2 the country row has Confirmed 15,
previous Confirmed 10, so the claim demands max(15 - 10, 0) = 5, but the
table holds the sum of the per-state clipped deltas, 10. -/
theorem c2_counterexample :
    ∃ p ∈ (aggregate_data (transform_data
        [⟨"X", "A", 1, 10, 0, 0, 0⟩, ⟨"X", "A", 2, 5, 0, 0, 0⟩,
         ⟨"X", "B", 1, 0, 0, 0, 0⟩, ⟨"X", "B", 2, 10, 0, 0, 0⟩])).2,
      ∃ q ∈ (aggregate_data (transform_data
        [⟨"X", "A", 1, 10, 0, 0, 0⟩, ⟨"X", "A", 2, 5, 0, 0, 0⟩,
         ⟨"X", "B", 1, 0, 0, 0, 0⟩, ⟨"X", "B", 2, 10, 0, 0, 0⟩])).2,
      q.1 = (1, "X") ∧ p.1 = (2, "X") ∧ q.2.Confirmed = 10 ∧
        p.2.Confirmed = 15 ∧ p.2.NewConfirmed = 10 ∧
        p.2.NewConfirmed ≠ max (p.2.Confirmed - q.2.Confirmed) 0 := by
  decide

/-- C2, amended: in both aggregator output tables, each NewX column holds
the sum over the group's constituent (Country, State) rows of their
individually clipped per-state deltas, not the clipped delta of the group's
own summed series.  Consequently NewX ≥ 0 on every row of both tables, and,
provided the input has at most one row per (Country, State, Date) (the
unified-dataset invariant), the first dated row of every group in either
table has NewX = 0. -/
theorem c2_amended (df : List CRow) :
    (∀ p ∈ (aggregate_data (transform_data df)).1,
      0 ≤ p.2.NewConfirmed ∧ 0 ≤ p.2.NewDeaths ∧ 0 ≤ p.2.NewRecovered) ∧
    (∀ p ∈ (aggregate_data (transform_data df)).2,
      0 ≤ p.2.NewConfirmed ∧ 0 ≤ p.2.NewDeaths ∧ 0 ≤ p.2.NewRecovered) ∧
    (df.Pairwise (fun a b =>
        (a.Country, a.State, a.Date) ≠ (b.Country, b.State, b.Date)) →
      (∀ p ∈ (aggregate_data (transform_data df)).1,
        (∀ q ∈ (aggregate_data (transform_data df)).1, p.1 ≤ q.1) →
        p.2.NewConfirmed = 0 ∧ p.2.NewDeaths = 0 ∧ p.2.NewRecovered = 0) ∧
      (∀ p ∈ (aggregate_data (transform_data df)).2,
        (∀ q ∈ (aggregate_data (transform_data df)).2,
          q.1.2 = p.1.2 → p.1.1 ≤ q.1.1) →
        p.2.NewConfirmed = 0 ∧ p.2.NewDeaths = 0 ∧ p.2.NewRecovered = 0)) := by
  refine ⟨?_, ?_, ?_⟩
  · intro p hp
    simp only [aggregate_data, List.mem_map] at hp
    obtain ⟨d, _, rfl⟩ := hp
    exact foldl_addAgg_nonneg _ _ ⟨le_refl 0, le_refl 0, le_refl 0⟩
      (fun t ht => transform_data_new_nonneg df t (List.mem_filter.mp ht).1)
  · intro p hp
    simp only [aggregate_data, List.mem_map] at hp
    obtain ⟨k, _, rfl⟩ := hp
    exact foldl_addAgg_nonneg _ _ ⟨le_refl 0, le_refl 0, le_refl 0⟩
      (fun t ht => transform_data_new_nonneg df t (List.mem_filter.mp ht).1)
  · intro hUniq
    constructor
    · intro p hp hminp
      simp only [aggregate_data, List.mem_map] at hp
      obtain ⟨d, _, rfl⟩ := hp
      have hzero : ∀ t ∈ (transform_data df).filter
          (fun r => decide (r.Date = d)),
          t.NewConfirmed = 0 ∧ t.NewDeaths = 0 ∧ t.NewRecovered = 0 := by
        intro t ht
        have ht1 := (List.mem_filter.mp ht).1
        have htd : t.Date = d := by
          have h2 := (List.mem_filter.mp ht).2
          simpa using h2
        apply transform_data_min_zero df t hUniq ht1
        intro u hu _ _
        obtain ⟨t', ht', htc⟩ := transform_data_surj df u hu
        have hq : (t'.Date, validateRow (sumRows ((transform_data df).filter
            (fun r => decide (r.Date = t'.Date))))) ∈
            (aggregate_data (transform_data df)).1 := by
          simp only [aggregate_data, List.mem_map]
          exact ⟨t'.Date, List.mem_dedup.mpr (List.mem_map_of_mem _ ht'), rfl⟩
        have hle := hminp _ hq
        have h1 : t'.toCRow.Date = u.Date := congrArg CRow.Date htc
        have h2 : t.toCRow.Date = d := htd
        rw [← h1]
        rw [h2]
        exact hle
      have hsum := foldl_addAgg_zero
        ((transform_data df).filter (fun r => decide (r.Date = d)))
        ⟨0, 0, 0, 0, 0, 0, 0⟩ hzero
      exact ⟨hsum.1, hsum.2.1, hsum.2.2⟩
    · intro p hp hminp
      simp only [aggregate_data, List.mem_map] at hp
      obtain ⟨k, _, rfl⟩ := hp
      obtain ⟨d, c⟩ := k
      have hzero : ∀ t ∈ (transform_data df).filter
          (fun r => decide ((r.Date, r.Country) = (d, c))),
          t.NewConfirmed = 0 ∧ t.NewDeaths = 0 ∧ t.NewRecovered = 0 := by
        intro t ht
        have ht1 := (List.mem_filter.mp ht).1
        have htk : (t.Date, t.Country) = (d, c) := by
          have h2 := (List.mem_filter.mp ht).2
          simpa using h2
        have htd : t.Date = d := (Prod.mk.injEq _ _ _ _ ▸ htk).1
        have htcy : t.Country = c := (Prod.mk.injEq _ _ _ _ ▸ htk).2
        apply transform_data_min_zero df t hUniq ht1
        intro u hu huC _
        obtain ⟨t', ht', htc⟩ := transform_data_surj df u hu
        have hq : ((t'.Date, t'.Country),
            validateRow (sumRows ((transform_data df).filter
              (fun r => decide ((r.Date, r.Country) = (t'.Date, t'.Country)))))) ∈
            (aggregate_data (transform_data df)).2 := by
          simp only [aggregate_data, List.mem_map]
          exact ⟨(t'.Date, t'.Country),
            List.mem_dedup.mpr (List.mem_map_of_mem _ ht'), rfl⟩
        have hC : t'.toCRow.Country = u.Country := congrArg CRow.Country htc
        have hqc : t'.Country = c := by
          rw [show t'.Country = t'.toCRow.Country from rfl, hC, huC]
          exact htcy
        have hle := hminp _ hq hqc
        have h1 : t'.toCRow.Date = u.Date := congrArg CRow.Date htc
        have h2 : t.toCRow.Date = d := htd
        rw [← h1]
        rw [h2]
        exact hle
      have hsum := foldl_addAgg_zero
        ((transform_data df).filter
          (fun r => decide ((r.Date, r.Country) = (d, c))))
        ⟨0, 0, 0, 0, 0, 0, 0⟩ hzero
      exact ⟨hsum.1, hsum.2.1, hsum.2.2⟩

/-- C2, witness: the amended properties on the concrete two-state
dataset. -/
theorem c2_amended_witness :
    (0 ≤ ((2, "X"), (⟨15, 0, 0, 0, 10, 0, 0⟩ : AggRow)).2.NewConfirmed ∧
      0 ≤ ((2, "X"), (⟨15, 0, 0, 0, 10, 0, 0⟩ : AggRow)).2.NewDeaths ∧
      0 ≤ ((2, "X"), (⟨15, 0, 0, 0, 10, 0, 0⟩ : AggRow)).2.NewRecovered) ∧
    (((1, "X"), (⟨10, 0, 0, 0, 0, 0, 0⟩ : AggRow)).2.NewConfirmed = 0 ∧
      ((1, "X"), (⟨10, 0, 0, 0, 0, 0, 0⟩ : AggRow)).2.NewDeaths = 0 ∧
      ((1, "X"), (⟨10, 0, 0, 0, 0, 0, 0⟩ : AggRow)).2.NewRecovered = 0) :=
  ⟨(c2_amended
      [⟨"X", "A", 1, 10, 0, 0, 0⟩, ⟨"X", "A", 2, 5, 0, 0, 0⟩,
       ⟨"X", "B", 1, 0, 0, 0, 0⟩, ⟨"X", "B", 2, 10, 0, 0, 0⟩]).2.1
      ((2, "X"), ⟨15, 0, 0, 0, 10, 0, 0⟩) (by decide),
    ((c2_amended
      [⟨"X", "A", 1, 10, 0, 0, 0⟩, ⟨"X", "A", 2, 5, 0, 0, 0⟩,
       ⟨"X", "B", 1, 0, 0, 0, 0⟩, ⟨"X", "B", 2, 10, 0, 0, 0⟩]).2.2
      (by decide)).2 ((1, "X"), ⟨10, 0, 0, 0, 0, 0, 0⟩) (by decide) (by decide)⟩

/-- C6: combine_daily_reports raises the ValueError exactly when no file
contributed a non-empty processed table (the code's own notion of being
processed successfully), and on success the combined table is precisely the
cleaned concatenation of every file's processed rows: a file that fails to
parse contributes the empty list, so its rows are simply absent and the
remaining files are still processed. -/
theorem c6_combine (files : List RawFile) :
    (combine_daily_reports files =
        Except.error ("No data was processed successfully") ↔
      ∀ f ∈ files, process_file f = []) ∧
    (∀ l, combine_daily_reports files = Except.ok l →
      l = clean_combined_data ((files.flatMap process_file).map toARow)) := by
  unfold combine_daily_reports
  by_cases hd : (files.map process_file).filter (fun l => decide (l ≠ [])) = []
  · rw [if_pos hd]
    refine ⟨⟨fun _ f hf => ?_, fun _ => rfl⟩, fun l hl => Except.noConfusion hl⟩
    have hmem := List.filter_eq_nil_iff.mp hd (process_file f)
      (List.mem_map_of_mem _ hf)
    simpa using hmem
  · rw [if_neg hd]
    refine ⟨⟨fun he => Except.noConfusion he, fun hall => ?_⟩, fun l hl => ?_⟩
    · exfalso
      apply hd
      apply List.filter_eq_nil_iff.mpr
      intro a ha
      obtain ⟨f, hf, rfl⟩ := List.mem_map.mp ha
      simp [hall f hf]
    · injection hl with hl2
      rw [← hl2, List.flatMap_def,
        ← flatten_filter_ne_nil (files.map process_file)]

/-- C6, witness: a run where every file is unreadable raises the
error. -/
theorem c6_witness :
    combine_daily_reports [(none : RawFile)] =
      Except.error ("No data was processed successfully") :=
  (c6_combine [none]).1.mpr (by decide)

/-- C7, counterexample: acquisition standardize_columns does not fill
missing text columns with the empty string: a pre-cutoff table with no
columns gets Province_State created as NaN (not the empty string), and the
text column Country_Region created as the number 0. -/
theorem c7_counterexample :
    getCol (standardize_columns [] 20200201) ("Province_State") =
        some Cell.nan ∧
      getCol (standardize_columns [] 20200201) ("Country_Region") =
        some (Cell.num 0) ∧
      Cell.nan ≠ Cell.str "" ∧ Cell.num 0 ≠ Cell.str "" := by
  decide

/-- C7, amended: DataLoader._process_data creates every missing essential
column with the empty string for the text column Province_State and 0
otherwise; etl.clean_data creates every missing required (numeric) column
with 0; acquisition standardize_columns creates every required column still
missing after renaming with NaN for Province_State and Last_Update and with
the number 0 for every other column, including the text column
Country_Region. -/
theorem c7_amended (r : DRow) (d : ℕ) (col : String) :
    (col ∈ dlEssentialColumns → hasCol r col = false →
      getCol (dl_ensure_essential r) col = some (dlFill col)) ∧
    (col ∈ etlRequiredColumns → hasCol r col = false →
      getCol (etl_ensure_required r) col = some (Cell.num 0)) ∧
    (col ∈ requiredColumns →
      hasCol (renameCols (if d < cutoffDate then preMapping else postMapping) r)
        col = false →
      getCol (standardize_columns r d) col = some (acqFill col)) ∧
    (dlFill ("Province_State") = Cell.str "" ∧
      acqFill ("Province_State") = Cell.nan ∧
      acqFill ("Country_Region") = Cell.num 0) := by
  refine ⟨?_, ?_, ?_, by decide⟩
  · intro hc habs
    exact getCol_fillFold_fill dlFill dlEssentialColumns r col hc habs
  · intro hc habs
    exact getCol_fillFold_fill (fun _ => Cell.num 0) etlRequiredColumns r col
      hc habs
  · intro hc habs
    exact getCol_fillFold_fill acqFill requiredColumns
      (renameCols (if d < cutoffDate then preMapping else postMapping) r) col
      hc habs

/-- C7, witness: the three fills evaluated on the empty table. -/
theorem c7_amended_witness :
    getCol (dl_ensure_essential []) ("Province_State") =
        some (dlFill ("Province_State")) ∧
      getCol (etl_ensure_required []) ("Confirmed") = some (Cell.num 0) ∧
      getCol (standardize_columns [] 20200101) ("Country_Region") =
        some (acqFill ("Country_Region")) :=
  ⟨(c7_amended [] 20200101 ("Province_State")).1 (by decide) rfl,
    (c7_amended [] 20200101 ("Confirmed")).2.1 (by decide) rfl,
    (c7_amended [] 20200101 ("Country_Region")).2.2.1 (by decide) (by decide)⟩

/-- C8: normalizing the pre-cutoff example row through the acquisition
pipeline (standardize_columns and the numeric coercion of process_file,
then the combined-table cleaning) yields exactly the claimed unified row:
the slash-separated columns are renamed to the underscore names because
2020-02-01 is before the 2020-03-22 cutoff, the values survive unchanged,
and Active is back-filled as Confirmed - Deaths - Recovered = 7. -/
theorem c8_normalize_example :
    cleanCombinedRow (toARow (process_file_row
        [("Province/State", Cell.str ""), ("Country/Region", Cell.str "China"),
         ("Confirmed", Cell.num 10), ("Deaths", Cell.num 1),
         ("Recovered", Cell.num 2)] 20200201)) =
      ⟨some "", some "China", 10, 1, 2, 7⟩ ∧
    (20200201 : ℕ) < cutoffDate ∧
    getCol (standardize_columns
        [("Province/State", Cell.str ""), ("Country/Region", Cell.str "China"),
         ("Confirmed", Cell.num 10), ("Deaths", Cell.num 1),
         ("Recovered", Cell.num 2)] 20200201) ("Province_State") =
      some (Cell.str "") ∧
    hasCol (standardize_columns
        [("Province/State", Cell.str ""), ("Country/Region", Cell.str "China"),
         ("Confirmed", Cell.num 10), ("Deaths", Cell.num 1),
         ("Recovered", Cell.num 2)] 20200201) ("Province/State") = false := by
  refine ⟨?_, by decide, by decide, by decide⟩
  have h1 : toARow (process_file_row
      [("Province/State", Cell.str ""), ("Country/Region", Cell.str "China"),
       ("Confirmed", Cell.num 10), ("Deaths", Cell.num 1),
       ("Recovered", Cell.num 2)] 20200201) =
      ⟨some "", some "China", 10, 1, 2, 0⟩ := by
    decide
  rw [h1]
  simp only [cleanCombinedRow, Option.getD_some, ARow.mk.injEq]
  norm_num [max_def, min_def]

/-- C9: the dashboard metric cards read iloc[-1] and iloc[-8] of the
selected entity's series unguarded, so create_metrics fails exactly on
series with fewer than 8 rows: rendering the cards presupposes at least 8
rows for the selected entity. -/
theorem c9_metric_cards (s : List SRow) :
    create_metrics s = none ↔ s.length < 8 := by
  rcases Nat.lt_or_ge s.length 8 with hlen | hlen
  · have h8 : ilocNeg s 8 = none := by
      unfold ilocNeg
      rw [if_neg (by omega)]
    constructor
    · intro _
      exact hlen
    · intro _
      unfold create_metrics
      rw [h8]
      cases ilocNeg s 1 <;> rfl
  · have h8 : ∃ a, ilocNeg s 8 = some a := by
      unfold ilocNeg
      rw [if_pos (by omega)]
      rcases hq : s.get? (s.length - 8) with _ | a
      · rw [List.get?_eq_none] at hq
        omega
      · exact ⟨a, rfl⟩
    have h1 : ∃ a, ilocNeg s 1 = some a := by
      unfold ilocNeg
      rw [if_pos (by omega)]
      rcases hq : s.get? (s.length - 1) with _ | a
      · rw [List.get?_eq_none] at hq
        omega
      · exact ⟨a, rfl⟩
    obtain ⟨a8, h8⟩ := h8
    obtain ⟨a1, h1⟩ := h1
    constructor
    · intro hnone
      unfold create_metrics at hnone
      rw [h1, h8] at hnone
      exact Option.noConfusion hnone
    · intro hlt
      omega

/-- C10, counterexample: the claim says every row with Confirmed = 0 gets a
non-finite Testing_Rate that is not replaced by zero, but a negative
Total_Test_Results over Confirmed = 0 gives -inf, which the clip at 0
replaces by exactly the finite value 0. -/
theorem c10_counterexample :
    testing_rate (-1) 0 = FVal.finite 0 ∧
      isFiniteFV (testing_rate (-1) 0) = true := by
  refine ⟨?_, ?_⟩ <;> rfl

/-- C10, amended: Testing_Rate is computed with no zero-denominator guard;
on a row with Confirmed = 0 and non-negative Total_Test_Results the result
is non-finite (+inf for positive tests, NaN for 0/0) and in particular is
not replaced by zero; only a negative Total_Test_Results over zero is
clipped to the finite value 0. -/
theorem c10_amended (t : ℚ) :
    (0 ≤ t → isFiniteFV (testing_rate t 0) = false ∧
      testing_rate t 0 ≠ FVal.finite 0) ∧
    (t < 0 → testing_rate t 0 = FVal.finite 0) ∧
    (0 < t → testing_rate t 0 = FVal.posInf) ∧
    (t = 0 → testing_rate t 0 = FVal.nan) := by
  rcases lt_trichotomy t 0 with h | h | h
  · have e : testing_rate t 0 = FVal.finite 0 := by
      unfold testing_rate fdiv
      rw [if_pos rfl, if_neg (lt_asymm h), if_pos h]
      rfl
    exact ⟨fun h0 => absurd h (not_lt.mpr h0), fun _ => e,
      fun h0 => absurd h0 (lt_asymm h), fun h0 => absurd (h0 ▸ h) (lt_irrefl 0)⟩
  · subst h
    have e : testing_rate 0 0 = FVal.nan := by
      unfold testing_rate fdiv
      rw [if_pos rfl, if_neg (lt_irrefl 0), if_neg (lt_irrefl 0)]
      rfl
    exact ⟨fun _ => ⟨by rw [e]; rfl, by rw [e]; exact fun hh => FVal.noConfusion hh⟩,
      fun h0 => absurd h0 (lt_irrefl 0), fun h0 => absurd h0 (lt_irrefl 0),
      fun _ => e⟩
  · have e : testing_rate t 0 = FVal.posInf := by
      unfold testing_rate fdiv
      rw [if_pos rfl, if_pos h]
      rfl
    exact ⟨fun _ => ⟨by rw [e]; rfl, by rw [e]; exact fun hh => FVal.noConfusion hh⟩,
      fun h0 => absurd h0 (lt_asymm h), fun _ => e,
      fun h0 => absurd (h0 ▸ h) (lt_irrefl 0)⟩

/-- C10, witness: the amended claim evaluated at concrete test counts. -/
theorem c10_amended_witness :
    (isFiniteFV (testing_rate 5 0) = false ∧
      testing_rate 5 0 ≠ FVal.finite 0) ∧
    testing_rate (-3) 0 = FVal.finite 0 :=
  ⟨(c10_amended 5).1 (by norm_num), (c10_amended (-3)).2.1 (by norm_num)⟩

end Covid

